import Mathlib

/-!
Verification of `appaloosa` analysis routines (`src/analysis.py` and
`src/appaloosa/analysis.py`) against their natural-language specification.

Times, thresholds and tabular data are embedded as exact rationals (ℚ)
where only comparisons and field arithmetic occur, and as reals (ℝ)
where the source uses `sqrt`, `log10` or non-integer powers.
NumPy 2-D arrays are embedded as `List (List ℚ)` with the same row-major
indexing convention `a[i, j]`; out-of-range access is given the default 0
(claims only exercise in-range indices).
-/

namespace Appaloosa

/-! ## Real-valued scalar routines from `src/analysis.py` -/

/-- `err_dn` of `_Perror` (src/analysis.py line 76):
`np.abs(n*(1.-1./(9.*n)-1./(3.*np.sqrt(n)))**3.-n)`. -/
noncomputable def err_dn (n : ℝ) : ℝ :=
  |n * (1 - 1 / (9 * n) - 1 / (3 * Real.sqrt n)) ^ (3 : ℕ) - n|

/-- `err_up` of `_Perror` (src/analysis.py line 77):
`n+np.sqrt(n+0.75)+1.0-n`. -/
noncomputable def err_up (n : ℝ) : ℝ :=
  n + Real.sqrt (n + 0.75) + 1.0 - n

/-- `_Perror(n, full, down)` (src/analysis.py lines 59-88): returns the pair
`(err_dn, err_up)` when `full is True`, else `err_dn` when `down is True`,
else `err_up`. -/
noncomputable def Perror (n : ℝ) (full down : Bool) : (ℝ × ℝ) ⊕ ℝ :=
  if full = true then Sum.inl (err_dn n, err_up n)
  else if down = true then Sum.inr (err_dn n)
  else Sum.inr (err_up n)

/-- `_DistModulus(m_app, M_abs)` (src/analysis.py lines 91-109):
`mu = m_app - M_abs; dist = 10.0**(mu/5.0 + 1.0)`. -/
noncomputable def DistModulus (m_app M_abs : ℝ) : ℝ :=
  (10 : ℝ) ^ ((m_app - M_abs) / 5.0 + 1.0)

/-- `_linfunc(x, m, b)` (src/analysis.py lines 112-116): `m * x + b`. -/
def linfunc (x m b : ℝ) : ℝ := m * x + b

/-- `_plaw(x, m, b)` (src/analysis.py lines 119-121):
`x2 = 10.**x; return b * (x2**m)`. -/
noncomputable def plaw (x m b : ℝ) : ℝ := b * ((10 : ℝ) ^ x) ^ m

/-- The FFD fit evaluation of `paper1_plots` (src/analysis.py line 725):
`fit_E[k] = 10.0**_linfunc(Epoint, *fit)` with fitted coefficients `(m, b)`. -/
noncomputable def fit_E_eval (Epoint m b : ℝ) : ℝ :=
  (10 : ℝ) ^ linfunc Epoint m b

/-! ## Tabular data model

NumPy 2-D float arrays loaded by `np.loadtxt` (shape = rows × columns,
rows = flares, columns = fields) are embedded as `List (List ℚ)`. -/

/-- `a[i, j]` for a 2-D array: row `i`, column `j` (default 0 out of range). -/
def mget (M : List (List ℚ)) (i j : ℕ) : ℚ := (M.getD i []).getD j 0

/-- Number of columns of a (rectangular) 2-D array: `len(a[0,:])`. -/
def ncols (M : List (List ℚ)) : ℕ := (M.getD 0 []).length

/-! ## `benchmark` (src/appaloosa/analysis.py lines 318-373,
src/analysis.py lines 427-482): the `n4` overlap statistic -/

/-- The three-clause "ANY overlap" test of `benchmark`
(src/appaloosa/analysis.py lines 363-366) for FBEYE flare `i` against
appaloosa flare `k`:
`((apdata[:,0] <= fbdata[i,2]) & (apdata[:,1] >= fbdata[i,3])) |
 ((apdata[:,0] >= fbdata[i,2]) & (apdata[:,0] <= fbdata[i,3])) |
 ((apdata[:,1] >= fbdata[i,2]) & (apdata[:,1] <= fbdata[i,3]))`. -/
def overlapTest (ap fb : List (List ℚ)) (i k : ℕ) : Bool :=
  (decide (mget ap k 0 ≤ mget fb i 2) && decide (mget ap k 1 ≥ mget fb i 3)) ||
  (decide (mget ap k 0 ≥ mget fb i 2) && decide (mget ap k 0 ≤ mget fb i 3)) ||
  (decide (mget ap k 1 ≥ mget fb i 2) && decide (mget ap k 1 ≤ mget fb i 3))

/-- `n4_i[i]` of `benchmark`: starts at 0, set to 1 when `x_any` is
non-empty, i.e. when some `k < len(apdata[:,0])` passes `overlapTest`. -/
def n4_i (ap fb : List (List ℚ)) (i : ℕ) : ℚ :=
  if (List.range ap.length).any (overlapTest ap fb i) then 1 else 0

/-- `np.sum(n4_i)` of `benchmark`. -/
def n4_num (ap fb : List (List ℚ)) : ℚ :=
  ((List.range fb.length).map (n4_i ap fb)).sum

/-- `n4 = float(np.sum(n4_i)) / float(len(fbdata[:,0]))` of `benchmark`
(src/appaloosa/analysis.py line 370). -/
def n4 (ap fb : List (List ℚ)) : ℚ := n4_num ap fb / (fb.length : ℚ)

/-- Interval intersection in the spec's words for C1: appaloosa interval
`[apdata[k,0], apdata[k,1]]` intersects the FBEYE interval
`[fbdata[i,2], fbdata[i,3]]`, i.e.
`apdata[k,0] <= fbdata[i,3]` and `apdata[k,1] >= fbdata[i,2]`. -/
def intersects (ap fb : List (List ℚ)) (i k : ℕ) : Prop :=
  mget ap k 0 ≤ mget fb i 3 ∧ mget ap k 1 ≥ mget fb i 2

instance (ap fb : List (List ℚ)) (i k : ℕ) : Decidable (intersects ap fb i k) := by
  unfold intersects; infer_instance

/-- The number of FBEYE flares with any intersecting appaloosa flare. -/
def countAnyOverlap (ap fb : List (List ℚ)) : ℕ :=
  ((List.range fb.length).filter
    (fun i => (List.range ap.length).any (fun k => decide (intersects ap fb i k)))).length

/-! ## `fbeye_compare` (src/appaloosa/analysis.py lines 15-63,
src/analysis.py lines 124-172) -/

/-- The selection `x_ap` computed by `fbeye_compare` at loop index `i`
(src/appaloosa/analysis.py lines 57-60), exactly as written in the source:
`np.where(((apdata[0,:] <= fbdata[2,i]) & (apdata[1,:] >= fbdata[3,i])) |
          ((apdata[0,:] >= fbdata[2,i]) & (apdata[0,:] <= fbdata[3,i])) |
          ((apdata[1,:] >= fbdata[2,i]) & (apdata[1,:] <= fbdata[3,i])))`,
a list of indices `j` along the columns of `apdata`. -/
def fbeye_x_ap (ap fb : List (List ℚ)) (i : ℕ) : List ℕ :=
  (List.range (ncols ap)).filter (fun j =>
    (decide (mget ap 0 j ≤ mget fb 2 i) && decide (mget ap 1 j ≥ mget fb 3 i)) ||
    (decide (mget ap 0 j ≥ mget fb 2 i) && decide (mget ap 0 j ≤ mget fb 3 i)) ||
    (decide (mget ap 1 j ≥ mget fb 2 i) && decide (mget ap 1 j ≤ mget fb 3 i)))

/-- The loop indices of `fbeye_compare`:
`range(0, len(fbdata[0,:]))` (src/appaloosa/analysis.py line 54). -/
def fbeye_loop_indices (fb : List (List ℚ)) : List ℕ := List.range (ncols fb)

/-- What C2 says `fbeye_compare` finds for FBEYE flare `i`: exactly the
appaloosa flares `k` whose `[t_start, t_stop] = [apdata[k,0], apdata[k,1]]`
interval overlaps the FBEYE interval `[fbdata[i,2], fbdata[i,3]]`.
This definition follows the spec's words, for comparison with
`fbeye_x_ap` above, which follows the source. -/
def specOverlapFlares (ap fb : List (List ℚ)) (i : ℕ) : List ℕ :=
  (List.range ap.length).filter (fun k => decide (intersects ap fb i k))

/-- Concrete appaloosa flare table: two flares, `[10, 20]` and `[30, 40]`. -/
def apEx : List (List ℚ) := [[10, 20], [30, 40]]

/-- Concrete FBEYE table: four flares with `(t_start, t_stop)` in columns
2 and 3: `[10, 20]`, `[100, 200]`, `[300, 400]`, `[500, 600]`. -/
def fbEx : List (List ℚ) :=
  [[0, 0, 10, 20], [0, 0, 100, 200], [0, 0, 300, 400], [0, 0, 500, 600]]

/-! ## `k2_mtg_plots` per-star loop (src/analysis.py lines 175-298,
src/appaloosa/analysis.py lines 66-246), `rerun=True` path -/

/-- Result of `np.loadtxt` on an aprun flare file: the file may be missing
(`IOError`), contain a single flare (1-D array, `data.ndim != 2`), or a
2-D table of flares. -/
inductive LoadResult where
  | missing : LoadResult
  | oneD (row : List ℚ) : LoadResult
  | twoD (rows : List (List ℚ)) : LoadResult

/-- The aprun file path for a star
(src/analysis.py lines 230-232): `fldr = kid[i][0:3];
apfile = 'aprun/' + fldr + '/' + kid[i] + '.flare'`. -/
def apfileName (kid : String) : String :=
  "aprun/" ++ kid.take 3 ++ "/" ++ kid ++ ".flare"

/-- `len(good1[0])`: rows with `data[:,9] >= 10` (chisq) and
`data[:,14] >= 0.1` (ED). -/
def good1_count (data : List (List ℚ)) : ℕ :=
  (data.filter (fun r => decide (r.getD 9 0 ≥ 10) && decide (r.getD 14 0 ≥ 0.1))).length

/-- `len(good2[0])`: rows with `data[:,9] >= 15` and `data[:,14] >= 0.2`. -/
def good2_count (data : List (List ℚ)) : ℕ :=
  (data.filter (fun r => decide (r.getD 9 0 ≥ 15) && decide (r.getD 14 0 ≥ 0.2))).length

/-- `len(good3[0])`: rows with `data[:,3] >= 0.005` (amplitude) and
`data[:,13] <= 0.05` (KS_p). -/
def good3_count (data : List (List ℚ)) : ℕ :=
  (data.filter (fun r => decide (r.getD 3 0 ≥ 0.005) && decide (r.getD 13 0 ≤ 0.05))).length

/-- `len(good4[0])`: rows with `data[:,3] >= 0.005`, `data[:,13] <= 0.05`
and `data[:,9] >= 15`. -/
def good4_count (data : List (List ℚ)) : ℕ :=
  (data.filter (fun r => decide (r.getD 3 0 ≥ 0.005) && decide (r.getD 13 0 ≤ 0.05) &&
    decide (r.getD 9 0 ≥ 15))).length

/-- One iteration of the per-star loop of `k2_mtg_plots`
(src/analysis.py lines 227-269): the four flare counts for star `kid`
(initialized to 0) and the warnings printed. A missing file (`IOError`)
prints `apfile + ' was not found!'` and leaves the counts at 0; a 1-D
load (`data.ndim != 2`) also leaves the counts at 0; a 2-D load counts
the four quality cuts. -/
def processStar (fs : String → LoadResult) (kid : String) :
    (ℕ × ℕ × ℕ × ℕ) × List String :=
  match fs (apfileName kid) with
  | LoadResult.missing => ((0, 0, 0, 0), [apfileName kid ++ " was not found!"])
  | LoadResult.oneD _ => ((0, 0, 0, 0), [])
  | LoadResult.twoD data =>
      ((good1_count data, good2_count data, good3_count data, good4_count data), [])

/-- The whole per-star loop `for i in range(0, len(kid))` of
`k2_mtg_plots` with `rerun=True`, over a file system `fs`. -/
def k2_loop (fs : String → LoadResult) (kids : List String) :
    List ((ℕ × ℕ × ℕ × ℕ) × List String) :=
  kids.map (processStar fs)

/-! ## `paper1_plots` (src/analysis.py lines 485-1254) -/

/-- `star = np.where((fdata[0].values == kicnum_c[k]))[0]`
(src/analysis.py line 621): the rows of the condor table belonging to one
star. -/
def starRows (fdata : List (List ℚ)) (kic : ℚ) : List (List ℚ) :=
  fdata.filter (fun row => decide (row.getD 0 0 = kic))

/-- `ED_all[k] = np.sum(fdata.loc[star,5].values)`
(src/analysis.py line 625): total flare energy in Equiv Dur (seconds). -/
def ED_all (fdata : List (List ℚ)) (kic : ℚ) : ℚ :=
  ((starRows fdata kic).map (fun row => row.getD 5 0)).sum

/-- `dur_all[k] = np.sum(fdata.loc[star,2].values)`
(src/analysis.py line 624): total light-curve duration (days). -/
def dur_all (fdata : List (List ℚ)) (kic : ℚ) : ℚ :=
  ((starRows fdata kic).map (fun row => row.getD 2 0)).sum

/-- `Lfl_Lbol = ED_all / (dur_all * 60. * 60. * 24.)`
(src/analysis.py line 1024). -/
def Lfl_Lbol (fdata : List (List ℚ)) (kic : ℚ) : ℚ :=
  ED_all fdata kic / (dur_all fdata kic * 60 * 60 * 24)

/-- The `kic_lflare.csv` output table (src/analysis.py lines 1029-1032):
one row per star with its KIC number, g-i color and `Lfl_Lbol`. -/
def kic_lflare_table (fdata : List (List ℚ)) (kicnum gi : List ℚ) :
    List (ℚ × ℚ × ℚ) :=
  (List.range kicnum.length).map
    (fun k => (kicnum.getD k 0, gi.getD k 0, Lfl_Lbol fdata (kicnum.getD k 0)))

/-- `np.cumsum` on a list: running totals. -/
def cumsum : List ℚ → List ℚ
  | [] => []
  | x :: xs => x :: (cumsum xs).map (fun y => x + y)

/-- `ffd_y = np.cumsum(fsum[::-1]/fnorm[::-1])`
(src/analysis.py line 687): the averaged flare-frequency distribution. -/
def ffd_y (fsum fnorm : List ℚ) : List ℚ :=
  cumsum (List.zipWith (fun a b => a / b) fsum.reverse fnorm.reverse)

/-! ## `benchmark` division hazards (src/appaloosa/analysis.py
lines 334-370, src/analysis.py lines 443-479) -/

/-- Python `float(a) / float(b)`, which fails (`ZeroDivisionError`) when
the divisor is zero. -/
def safeDiv (a b : ℚ) : Option ℚ :=
  if b = 0 then none else some (a / b)

/-- One pass of the masking loop body
`x = np.where((time >= rows[k,0]) & (time <= rows[k,1])); mask[x] = 1`. -/
def setMask (time : List ℚ) (t0 t1 : ℚ) (cur : List ℚ) : List ℚ :=
  List.zipWith (fun t c => if t0 ≤ t ∧ t ≤ t1 then (1 : ℚ) else c) time cur

/-- The masking loops of `benchmark`
(src/appaloosa/analysis.py lines 335-344): start from `np.zeros_like(time)`
and set to 1 every sample falling in some `[rows[k,0], rows[k,1]]`
interval; produces `aptime` from `apdata` and `fbtime` from `fbdata`. -/
def maskIntervals (time : List ℚ) (rows : List (List ℚ)) : List ℚ :=
  (List.range rows.length).foldl
    (fun cur k => setMask time (mget rows k 0) (mget rows k 1) cur)
    (List.replicate time.length 0)

/-- `n1 = float(len(apdata[:,0])) / float(len(fbdata[:,0]))`. -/
def benchmark_n1 (ap fb : List (List ℚ)) : Option ℚ :=
  safeDiv (ap.length : ℚ) (fb.length : ℚ)

/-- `n2 = float(np.sum(aptime)) / float(np.sum(fbtime))`. -/
def benchmark_n2 (time : List ℚ) (ap fb : List (List ℚ)) : Option ℚ :=
  safeDiv (maskIntervals time ap).sum (maskIntervals time fb).sum

/-- `n3 = float(np.sum((fbtime == 1) & (aptime == 1))) / float(np.sum(fbtime == 1))`. -/
def benchmark_n3 (time : List ℚ) (ap fb : List (List ℚ)) : Option ℚ :=
  safeDiv
    ((((maskIntervals time fb).zip (maskIntervals time ap)).filter
        (fun p => decide (p.1 = 1) && decide (p.2 = 1))).length : ℚ)
    (((maskIntervals time fb).filter (fun v => decide (v = 1))).length : ℚ)

/-- `n4 = float(np.sum(n4_i)) / float(len(fbdata[:,0]))`, with the division
made explicit. -/
def benchmark_n4_checked (ap fb : List (List ℚ)) : Option ℚ :=
  safeDiv (n4_num ap fb) (fb.length : ℚ)

/-! ## IEEE-754 special-value semantics for `_Perror` at `n = 0` (C9)

The floating-point code divides by `9.*n` and `3.*np.sqrt(n)`; at `n = 0`
both divisors are zero. The exceptional values produced (`inf`, `-inf`,
`nan`) are exact in IEEE-754 binary arithmetic, so this model carries exact
reals in the finite case and the three special values, with the IEEE rules
for each operation `_Perror` performs. -/

inductive FVal where
  | fin (q : ℝ) : FVal
  | inf : FVal
  | ninf : FVal
  | nan : FVal

/-- IEEE addition on special values. -/
noncomputable def fadd : FVal → FVal → FVal
  | FVal.nan, _ => FVal.nan
  | _, FVal.nan => FVal.nan
  | FVal.fin a, FVal.fin b => FVal.fin (a + b)
  | FVal.fin _, FVal.inf => FVal.inf
  | FVal.inf, FVal.fin _ => FVal.inf
  | FVal.fin _, FVal.ninf => FVal.ninf
  | FVal.ninf, FVal.fin _ => FVal.ninf
  | FVal.inf, FVal.inf => FVal.inf
  | FVal.ninf, FVal.ninf => FVal.ninf
  | FVal.inf, FVal.ninf => FVal.nan
  | FVal.ninf, FVal.inf => FVal.nan

/-- IEEE subtraction on special values. -/
noncomputable def fsub : FVal → FVal → FVal
  | FVal.nan, _ => FVal.nan
  | _, FVal.nan => FVal.nan
  | FVal.fin a, FVal.fin b => FVal.fin (a - b)
  | FVal.fin _, FVal.inf => FVal.ninf
  | FVal.fin _, FVal.ninf => FVal.inf
  | FVal.inf, FVal.fin _ => FVal.inf
  | FVal.ninf, FVal.fin _ => FVal.ninf
  | FVal.inf, FVal.inf => FVal.nan
  | FVal.ninf, FVal.ninf => FVal.nan
  | FVal.inf, FVal.ninf => FVal.inf
  | FVal.ninf, FVal.inf => FVal.ninf

/-- IEEE multiplication on special values: `0 * ±inf = nan`. -/
noncomputable def fmul : FVal → FVal → FVal
  | FVal.nan, _ => FVal.nan
  | _, FVal.nan => FVal.nan
  | FVal.fin a, FVal.fin b => FVal.fin (a * b)
  | FVal.fin a, FVal.inf =>
      if a = 0 then FVal.nan else if 0 < a then FVal.inf else FVal.ninf
  | FVal.inf, FVal.fin a =>
      if a = 0 then FVal.nan else if 0 < a then FVal.inf else FVal.ninf
  | FVal.fin a, FVal.ninf =>
      if a = 0 then FVal.nan else if 0 < a then FVal.ninf else FVal.inf
  | FVal.ninf, FVal.fin a =>
      if a = 0 then FVal.nan else if 0 < a then FVal.ninf else FVal.inf
  | FVal.inf, FVal.inf => FVal.inf
  | FVal.ninf, FVal.ninf => FVal.inf
  | FVal.inf, FVal.ninf => FVal.ninf
  | FVal.ninf, FVal.inf => FVal.ninf

/-- IEEE division on special values: `x / 0 = ±inf` for `x ≠ 0`,
`0 / 0 = nan`. -/
noncomputable def fdiv : FVal → FVal → FVal
  | FVal.nan, _ => FVal.nan
  | _, FVal.nan => FVal.nan
  | FVal.fin a, FVal.fin b =>
      if b = 0 then
        (if a = 0 then FVal.nan else if 0 < a then FVal.inf else FVal.ninf)
      else FVal.fin (a / b)
  | FVal.fin _, FVal.inf => FVal.fin 0
  | FVal.fin _, FVal.ninf => FVal.fin 0
  | FVal.inf, FVal.fin b => if 0 ≤ b then FVal.inf else FVal.ninf
  | FVal.ninf, FVal.fin b => if 0 ≤ b then FVal.ninf else FVal.inf
  | FVal.inf, FVal.inf => FVal.nan
  | FVal.inf, FVal.ninf => FVal.nan
  | FVal.ninf, FVal.inf => FVal.nan
  | FVal.ninf, FVal.ninf => FVal.nan

/-- IEEE square root: `sqrt` of a negative number is `nan`. -/
noncomputable def fsqrt : FVal → FVal
  | FVal.nan => FVal.nan
  | FVal.inf => FVal.inf
  | FVal.ninf => FVal.nan
  | FVal.fin a => if a < 0 then FVal.nan else FVal.fin (Real.sqrt a)

/-- IEEE `x ** 3.` (cube, odd integral exponent). -/
noncomputable def fpow3 : FVal → FVal
  | FVal.nan => FVal.nan
  | FVal.inf => FVal.inf
  | FVal.ninf => FVal.ninf
  | FVal.fin a => FVal.fin (a ^ (3 : ℕ))

/-- IEEE `np.abs`. -/
noncomputable def fabs : FVal → FVal
  | FVal.nan => FVal.nan
  | FVal.inf => FVal.inf
  | FVal.ninf => FVal.inf
  | FVal.fin a => FVal.fin |a|

/-- `err_dn` of `_Perror` under IEEE special-value semantics:
`np.abs(n*(1.-1./(9.*n)-1./(3.*np.sqrt(n)))**3.-n)`. -/
noncomputable def err_dnF (n : FVal) : FVal :=
  fabs (fsub
    (fmul n (fpow3 (fsub
      (fsub (FVal.fin 1) (fdiv (FVal.fin 1) (fmul (FVal.fin 9) n)))
      (fdiv (FVal.fin 1) (fmul (FVal.fin 3) (fsqrt n))))))
    n)

/-- `err_up` of `_Perror` under IEEE special-value semantics:
`n+np.sqrt(n+0.75)+1.0-n`. -/
noncomputable def err_upF (n : FVal) : FVal :=
  fsub (fadd (fadd n (fsqrt (fadd n (FVal.fin 0.75)))) (FVal.fin 1)) n

/-- `_Perror` under IEEE special-value semantics: the function has no guard
on `n <= 0` (the guard at src/analysis.py lines 74 and 79-80 is commented
out), so it evaluates the two expressions at any `n` and returns them
according to the `full`/`down` flags. -/
noncomputable def PerrorF (n : FVal) (full down : Bool) : (FVal × FVal) ⊕ FVal :=
  if full = true then Sum.inl (err_dnF n, err_upF n)
  else if down = true then Sum.inr (err_dnF n)
  else Sum.inr (err_upF n)

/-! ## Theorems -/

/-- C4: for every count `n`, `_Perror(n, full=True)` returns the pair
`(err_dn, err_up)` with `err_up = sqrt(n + 0.75) + 1` and
`err_dn = |n*(1 - 1/(9n) - 1/(3*sqrt n))^3 - n|`; `_Perror(n, down=True)`
returns exactly the first component of that pair, and `_Perror(n)` with the
default flags returns exactly the second, so the single-value and full
outputs agree. -/
theorem Perror_full_down_default_agree (n : ℝ) (d : Bool) :
    Perror n true d = Sum.inl (err_dn n, err_up n) ∧
    err_up n = Real.sqrt (n + 0.75) + 1 ∧
    err_dn n = |n * (1 - 1 / (9 * n) - 1 / (3 * Real.sqrt n)) ^ (3 : ℕ) - n| ∧
    Perror n false true = Sum.inr (err_dn n) ∧
    Perror n false false = Sum.inr (err_up n) := by
  refine ⟨rfl, ?_, rfl, rfl, rfl⟩
  unfold err_up
  ring

/-- C5: `_DistModulus` returns `dist = 10^((m_app - M_abs)/5 + 1)`, which is
strictly positive and satisfies the classic distance-modulus equation
`m_app - M_abs = 5*log10(dist) - 5`, over exact arithmetic. -/
theorem DistModulus_inverts_modulus_equation (m_app M_abs : ℝ) :
    DistModulus m_app M_abs = (10 : ℝ) ^ ((m_app - M_abs) / 5 + 1) ∧
    0 < DistModulus m_app M_abs ∧
    m_app - M_abs = 5 * Real.logb 10 (DistModulus m_app M_abs) - 5 := by
  refine ⟨by norm_num [DistModulus], ?_, ?_⟩
  · exact Real.rpow_pos_of_pos (by norm_num) _
  · unfold DistModulus
    rw [Real.logb_rpow (by norm_num) (by norm_num)]
    ring

/-- C6: for every `x`, `m`, and `b > 0`,
`_plaw(x, m, b) = 10^(_linfunc(x, m, log10 b))`, and the FFD fit evaluation
`10^(_linfunc(Epoint, m, b))` equals `_plaw(Epoint, m, 10^b)`. -/
theorem plaw_linfunc_interchangeable (x m b : ℝ) :
    (0 < b → plaw x m b = (10 : ℝ) ^ linfunc x m (Real.logb 10 b)) ∧
    fit_E_eval x m b = plaw x m ((10 : ℝ) ^ b) := by
  constructor
  · intro hb
    unfold plaw linfunc
    rw [Real.rpow_add (by norm_num : (0 : ℝ) < 10),
        Real.rpow_logb (by norm_num) (by norm_num) hb, mul_comm m x,
        Real.rpow_mul (by norm_num : (0 : ℝ) ≤ 10), mul_comm]
  · unfold fit_E_eval plaw linfunc
    rw [Real.rpow_add (by norm_num : (0 : ℝ) < 10), mul_comm m x,
        Real.rpow_mul (by norm_num : (0 : ℝ) ≤ 10), mul_comm]

/-- Witness for C6 at the concrete point `x = 1`, `m = 2`, `b = 10`. -/
theorem plaw_linfunc_interchangeable_witness :
    (0 : ℝ) < 10 ∧
    (plaw 1 2 10 = (10 : ℝ) ^ linfunc 1 2 (Real.logb 10 10) ∧
     fit_E_eval 1 2 10 = plaw 1 2 ((10 : ℝ) ^ (10 : ℝ))) :=
  ⟨by norm_num,
   (plaw_linfunc_interchangeable 1 2 10).1 (by norm_num),
   (plaw_linfunc_interchangeable 1 2 10).2⟩

/-- The three-clause test agrees with interval intersection whenever both
intervals are well-formed. -/
theorem overlapTest_iff_intersects (ap fb : List (List ℚ)) (i k : ℕ)
    (hk : mget ap k 0 ≤ mget ap k 1) (hi : mget fb i 2 ≤ mget fb i 3) :
    overlapTest ap fb i k = true ↔ intersects ap fb i k := by
  unfold overlapTest intersects
  simp only [Bool.or_eq_true, Bool.and_eq_true, decide_eq_true_eq, ge_iff_le]
  constructor
  · rintro ((⟨h1, h2⟩ | ⟨h1, h2⟩) | ⟨h1, h2⟩) <;> exact ⟨by linarith, by linarith⟩
  · rintro ⟨h1, h2⟩
    by_cases hc : mget fb i 2 ≤ mget ap k 0
    · exact Or.inl (Or.inr ⟨hc, h1⟩)
    · push_neg at hc
      by_cases hd : mget ap k 1 ≤ mget fb i 3
      · exact Or.inr ⟨h2, hd⟩
      · push_neg at hd
        exact Or.inl (Or.inl ⟨le_of_lt hc, le_of_lt hd⟩)

/-- Summing a 0/1 indicator over a list counts the elements passing the
predicate. -/
theorem sum_map_indicator (l : List ℕ) (p : ℕ → Bool) :
    (l.map (fun i => if p i then (1 : ℚ) else 0)).sum = ((l.filter p).length : ℚ) := by
  induction l with
  | nil => simp
  | cons a l ih =>
      cases h : p a <;> simp [List.filter_cons, h, ih, add_comm]

/-- C1: in `benchmark`, for every FBEYE flare `i` with a well-formed interval
and every appaloosa table with well-formed rows, `n4_i[i] = 1` iff some
appaloosa interval intersects the FBEYE interval; consequently `n4` equals
the number of FBEYE flares with any overlapping appaloosa flare divided by
the total number of FBEYE flares, and `0 ≤ n4 ≤ 1`. -/
theorem benchmark_n4_overlap (ap fb : List (List ℚ))
    (hap : ∀ k < ap.length, mget ap k 0 ≤ mget ap k 1) :
    (∀ i < fb.length, mget fb i 2 ≤ mget fb i 3 →
      (n4_i ap fb i = 1 ↔ ∃ k < ap.length, intersects ap fb i k)) ∧
    ((∀ i < fb.length, mget fb i 2 ≤ mget fb i 3) → fb ≠ [] →
      n4 ap fb = (countAnyOverlap ap fb : ℚ) / (fb.length : ℚ) ∧
      0 ≤ n4 ap fb ∧ n4 ap fb ≤ 1) := by
  have hany : ∀ i, mget fb i 2 ≤ mget fb i 3 →
      ((List.range ap.length).any (overlapTest ap fb i) =
       (List.range ap.length).any (fun k => decide (intersects ap fb i k))) := by
    intro i hi
    rw [Bool.eq_iff_iff]
    simp only [List.any_eq_true, List.mem_range, decide_eq_true_eq]
    constructor
    · rintro ⟨k, hklt, hk⟩
      exact ⟨k, hklt, (overlapTest_iff_intersects ap fb i k (hap k hklt) hi).mp hk⟩
    · rintro ⟨k, hklt, hk⟩
      exact ⟨k, hklt, (overlapTest_iff_intersects ap fb i k (hap k hklt) hi).mpr hk⟩
  constructor
  · intro i _ hi
    unfold n4_i
    rw [hany i hi]
    simp only [List.any_eq_true, List.mem_range, decide_eq_true_eq]
    by_cases h : ∃ k < ap.length, intersects ap fb i k
    · simp [h]
    · simp [h]
  · intro hfb hne
    have hnum : n4_num ap fb = (countAnyOverlap ap fb : ℚ) := by
      unfold n4_num countAnyOverlap n4_i
      rw [sum_map_indicator (List.range fb.length)
            (fun i => (List.range ap.length).any (overlapTest ap fb i))]
      have hf :
          List.filter (fun i => (List.range ap.length).any (overlapTest ap fb i))
              (List.range fb.length) =
            List.filter (fun i => (List.range ap.length).any
                (fun k => decide (intersects ap fb i k)))
              (List.range fb.length) :=
        List.filter_congr (fun i hi => hany i (hfb i (List.mem_range.mp hi)))
      rw [hf]
    have hlenpos : 0 < (fb.length : ℚ) := by
      have : 0 < fb.length := List.length_pos.mpr hne
      exact_mod_cast this
    have hcount_le : countAnyOverlap ap fb ≤ fb.length := by
      calc countAnyOverlap ap fb
          ≤ (List.range fb.length).length := List.length_filter_le _ _
        _ = fb.length := List.length_range _
    refine ⟨by rw [n4, hnum], ?_, ?_⟩
    · unfold n4
      rw [hnum]
      positivity
    · unfold n4
      rw [hnum, div_le_one hlenpos]
      exact_mod_cast hcount_le

/-- Witness for C1 at a concrete appaloosa table `[[0, 1]]` and FBEYE table
`[[0, 0, 0, 2]]`. -/
theorem benchmark_n4_overlap_witness :
    (∀ k < (([[0, 1]] : List (List ℚ))).length,
      mget [[0, 1]] k 0 ≤ mget [[0, 1]] k 1) ∧
    ((∀ i < (([[0, 0, 0, 2]] : List (List ℚ))).length,
        mget [[0, 0, 0, 2]] i 2 ≤ mget [[0, 0, 0, 2]] i 3 →
        (n4_i [[0, 1]] [[0, 0, 0, 2]] i = 1 ↔
          ∃ k < (([[0, 1]] : List (List ℚ))).length,
            intersects [[0, 1]] [[0, 0, 0, 2]] i k)) ∧
     ((∀ i < (([[0, 0, 0, 2]] : List (List ℚ))).length,
        mget [[0, 0, 0, 2]] i 2 ≤ mget [[0, 0, 0, 2]] i 3) →
      ([[0, 0, 0, 2]] : List (List ℚ)) ≠ [] →
      n4 [[0, 1]] [[0, 0, 0, 2]] =
        (countAnyOverlap [[0, 1]] [[0, 0, 0, 2]] : ℚ) /
          ((([[0, 0, 0, 2]] : List (List ℚ))).length : ℚ) ∧
      0 ≤ n4 [[0, 1]] [[0, 0, 0, 2]] ∧ n4 [[0, 1]] [[0, 0, 0, 2]] ≤ 1)) :=
  ⟨by decide, benchmark_n4_overlap [[0, 1]] [[0, 0, 0, 2]] (by decide)⟩

/-- C2 counterexample: at the concrete tables `apEx`, `fbEx`, appaloosa
flare 0 (`[10, 20]`) overlaps FBEYE flare 0 (`[10, 20]`), yet the selection
`x_ap` computed by `fbeye_compare` at loop index 0 is empty: the code
indexes both arrays transposed, so it does not find the overlapping
flares. -/
theorem fbeye_compare_transposed_counterexample :
    fbeye_x_ap apEx fbEx 0 = [] ∧
    specOverlapFlares apEx fbEx 0 = [0] ∧
    fbeye_x_ap apEx fbEx 0 ≠ specOverlapFlares apEx fbEx 0 := by
  decide

/-- C3: in the per-star loop of `k2_mtg_plots` with `rerun=True`, whenever
the star's aprun flare file is missing, the function prints a warning
naming the missing file and skips that star: all four flare counts keep
their initial value 0, no exception propagates (the loop result is total
and has one entry per star), and the loop continues with the next star
(every star's entry is that star's own `processStar` result). -/
theorem k2_mtg_missing_file_skips (fs : String → LoadResult)
    (kids : List String) (i : ℕ) (hi : i < kids.length)
    (hmiss : fs (apfileName (kids.getD i "")) = LoadResult.missing) :
    ((k2_loop fs kids).getD i ((0, 0, 0, 0), [])).1 = (0, 0, 0, 0) ∧
    ((k2_loop fs kids).getD i ((0, 0, 0, 0), [])).2 =
      [apfileName (kids.getD i "") ++ " was not found!"] ∧
    (k2_loop fs kids).length = kids.length ∧
    (∀ j, j < kids.length →
      (k2_loop fs kids).getD j ((0, 0, 0, 0), []) =
        processStar fs (kids.getD j "")) := by
  have hmap : ∀ j, j < kids.length →
      (k2_loop fs kids).getD j ((0, 0, 0, 0), []) =
        processStar fs (kids.getD j "") := by
    intro j hj
    have hj2 : j < (k2_loop fs kids).length := by simpa [k2_loop] using hj
    rw [List.getD_eq_getElem _ _ hj2, List.getD_eq_getElem _ _ hj]
    simp [k2_loop]
  refine ⟨?_, ?_, by simp [k2_loop], hmap⟩ <;>
    rw [hmap i hi] <;> unfold processStar <;> rw [hmiss]

/-- Witness for C3: a file system where every file is missing, one star. -/
theorem k2_mtg_missing_file_skips_witness :
    0 < (["012345678"] : List String).length ∧
    (((k2_loop (fun _ => LoadResult.missing) ["012345678"]).getD 0
        ((0, 0, 0, 0), [])).1 = (0, 0, 0, 0) ∧
     ((k2_loop (fun _ => LoadResult.missing) ["012345678"]).getD 0
        ((0, 0, 0, 0), [])).2 =
       [apfileName ((["012345678"] : List String).getD 0 "") ++ " was not found!"] ∧
     (k2_loop (fun _ => LoadResult.missing) ["012345678"]).length =
       (["012345678"] : List String).length ∧
     (∀ j, j < (["012345678"] : List String).length →
       (k2_loop (fun _ => LoadResult.missing) ["012345678"]).getD j
           ((0, 0, 0, 0), []) =
         processStar (fun _ => LoadResult.missing)
           ((["012345678"] : List String).getD j ""))) :=
  ⟨by decide,
   k2_mtg_missing_file_skips (fun _ => LoadResult.missing) ["012345678"] 0
     (by decide) rfl⟩

/-- C7: in `paper1_plots`, the fractional flare energy of every star is
computed as `Lfl_Lbol = ED_all / (dur_all * 60 * 60 * 24)` (summed
equivalent duration in seconds over total light-curve duration converted
from days to seconds), and exactly this per-star quantity is written to
the `kic_lflare.csv` table alongside the KIC number and g-i color. -/
theorem paper1_lfl_lbol_table (fdata : List (List ℚ)) (kicnum gi : List ℚ)
    (k : ℕ) (hk : k < kicnum.length) :
    Lfl_Lbol fdata (kicnum.getD k 0) =
      ED_all fdata (kicnum.getD k 0) /
        (dur_all fdata (kicnum.getD k 0) * 60 * 60 * 24) ∧
    (kic_lflare_table fdata kicnum gi).getD k (0, 0, 0) =
      (kicnum.getD k 0, gi.getD k 0, Lfl_Lbol fdata (kicnum.getD k 0)) ∧
    (kic_lflare_table fdata kicnum gi).length = kicnum.length := by
  refine ⟨rfl, ?_, by simp [kic_lflare_table]⟩
  have hk2 : k < (kic_lflare_table fdata kicnum gi).length := by
    simpa [kic_lflare_table] using hk
  rw [List.getD_eq_getElem _ _ hk2]
  simp [kic_lflare_table]

/-- Witness for C7: one condor row `[1, 0, 2, 0, 0, 5]` (KIC 1, duration 2
days, summed ED 5 s), star list `[1]`, colors `[3]`. -/
theorem paper1_lfl_lbol_table_witness :
    0 < ([(1 : ℚ)] : List ℚ).length ∧
    (Lfl_Lbol [[1, 0, 2, 0, 0, 5]] (([(1 : ℚ)]).getD 0 0) =
      ED_all [[1, 0, 2, 0, 0, 5]] (([(1 : ℚ)]).getD 0 0) /
        (dur_all [[1, 0, 2, 0, 0, 5]] (([(1 : ℚ)]).getD 0 0) * 60 * 60 * 24) ∧
     (kic_lflare_table [[1, 0, 2, 0, 0, 5]] [1] [3]).getD 0 (0, 0, 0) =
       (([(1 : ℚ)]).getD 0 0, ([(3 : ℚ)]).getD 0 0,
        Lfl_Lbol [[1, 0, 2, 0, 0, 5]] (([(1 : ℚ)]).getD 0 0)) ∧
     (kic_lflare_table [[1, 0, 2, 0, 0, 5]] [1] [3]).length =
       ([(1 : ℚ)] : List ℚ).length) :=
  ⟨by decide, paper1_lfl_lbol_table [[1, 0, 2, 0, 0, 5]] [1] [3] 0 (by decide)⟩

/-- `cumsum` preserves length. -/
theorem cumsum_length (l : List ℚ) : (cumsum l).length = l.length := by
  induction l with
  | nil => rfl
  | cons x xs ih => simp [cumsum, ih]

/-- The head of `cumsum` is the head of the list. -/
theorem cumsum_getD_zero (l : List ℚ) : (cumsum l).getD 0 0 = l.getD 0 0 := by
  cases l with
  | nil => rfl
  | cons x xs => rfl

/-- `getD` through a `map (x + ·)` in range. -/
theorem getD_map_add (x : ℚ) (l : List ℚ) (i : ℕ) (h : i < l.length) :
    (l.map (fun y => x + y)).getD i 0 = x + l.getD i 0 := by
  have h2 : i < (l.map (fun y => x + y)).length := by simpa using h
  rw [List.getD_eq_getElem _ _ h2, List.getD_eq_getElem _ _ h]
  simp

/-- Adjacent entries of `cumsum` differ by the list entry. -/
theorem cumsum_getD_succ (l : List ℚ) (j : ℕ) (h : j + 1 < l.length) :
    (cumsum l).getD (j + 1) 0 = (cumsum l).getD j 0 + l.getD (j + 1) 0 := by
  induction l generalizing j with
  | nil => simp at h
  | cons x xs ih =>
    have hxs : j < xs.length := by simpa using h
    cases j with
    | zero =>
      show ((cumsum xs).map (fun y => x + y)).getD 0 0 = x + xs.getD 0 0
      rw [getD_map_add x (cumsum xs) 0 (by rw [cumsum_length]; exact hxs),
        cumsum_getD_zero]
    | succ j' =>
      have hxs' : j' + 1 < xs.length := hxs
      show ((cumsum xs).map (fun y => x + y)).getD (j' + 1) 0 =
        ((cumsum xs).map (fun y => x + y)).getD j' 0 + xs.getD (j' + 1) 0
      rw [getD_map_add x (cumsum xs) (j' + 1) (by rw [cumsum_length]; exact hxs'),
        getD_map_add x (cumsum xs) j' (by rw [cumsum_length]; omega),
        ih j' hxs']
      ring

/-- C8: the averaged flare-frequency distribution
`ffd_y = cumsum(fsum[::-1] / fnorm[::-1])` is cumulative: whenever all
per-bin averaged rates up to index `j+1` are defined (`fnorm > 0` on every
contributing bin) and non-negative, `ffd_y[j] ≤ ffd_y[j+1]`. -/
theorem ffd_y_cumulative_monotone (fsum fnorm : List ℚ) (j : ℕ)
    (hj : j + 1 < (ffd_y fsum fnorm).length)
    (_hpos : ∀ i < j + 2, 0 < fnorm.reverse.getD i 1)
    (hnn : ∀ i < j + 2,
      0 ≤ (List.zipWith (fun a b => a / b) fsum.reverse fnorm.reverse).getD i 0) :
    (ffd_y fsum fnorm).getD j 0 ≤ (ffd_y fsum fnorm).getD (j + 1) 0 := by
  have hlen : j + 1 <
      (List.zipWith (fun a b => a / b) fsum.reverse fnorm.reverse).length := by
    simpa [ffd_y, cumsum_length] using hj
  have hstep := cumsum_getD_succ
    (List.zipWith (fun a b => a / b) fsum.reverse fnorm.reverse) j hlen
  have hterm := hnn (j + 1) (by omega)
  unfold ffd_y
  rw [hstep]
  linarith

/-- Witness for C8 at `fsum = [1, 2]`, `fnorm = [1, 1]`, `j = 0`. -/
theorem ffd_y_cumulative_monotone_witness :
    (0 + 1 < (ffd_y [1, 2] [1, 1]).length ∧
     (∀ i < 0 + 2, 0 < ([1, 1] : List ℚ).reverse.getD i 1) ∧
     (∀ i < 0 + 2,
       0 ≤ (List.zipWith (fun a b => a / b) ([1, 2] : List ℚ).reverse
             (([1, 1] : List ℚ)).reverse).getD i 0)) ∧
    (ffd_y [1, 2] [1, 1]).getD 0 0 ≤ (ffd_y [1, 2] [1, 1]).getD (0 + 1) 0 := by
  have hz : List.zipWith (fun a b => a / b) ([1, 2] : List ℚ).reverse
      (([1, 1] : List ℚ)).reverse = [2, 1] := by
    norm_num [List.zipWith]
  have hj : 0 + 1 < (ffd_y [1, 2] [1, 1]).length := by
    simp only [ffd_y, hz]
    decide
  have hpos : ∀ i < 0 + 2, 0 < ([1, 1] : List ℚ).reverse.getD i 1 := by decide
  have hnn : ∀ i < 0 + 2,
      0 ≤ (List.zipWith (fun a b => a / b) ([1, 2] : List ℚ).reverse
            (([1, 1] : List ℚ)).reverse).getD i 0 := by
    simp only [hz]
    decide
  exact ⟨⟨hj, hpos, hnn⟩, ffd_y_cumulative_monotone [1, 2] [1, 1] 0 hj hpos hnn⟩

/-- C9: at `n = 0` the downward Poisson error expression of `_Perror`
divides by `9*n` and by `3*sqrt(n)`, both zero, so `err_dn` is NaN under
the floating-point semantics; the function has no guard, and both
`_Perror(0, full=True)` and `_Perror(0, down=True)` still return this
undefined value. -/
theorem Perror_zero_returns_nan :
    fmul (FVal.fin 9) (FVal.fin 0) = FVal.fin 0 ∧
    fmul (FVal.fin 3) (fsqrt (FVal.fin 0)) = FVal.fin 0 ∧
    err_dnF (FVal.fin 0) = FVal.nan ∧
    PerrorF (FVal.fin 0) true false = Sum.inl (FVal.nan, err_upF (FVal.fin 0)) ∧
    PerrorF (FVal.fin 0) false true = Sum.inr FVal.nan := by
  have ediv0 : fdiv (FVal.fin 1) (FVal.fin 0) = FVal.inf := by
    show (if (0 : ℝ) = 0 then
        (if (1 : ℝ) = 0 then FVal.nan else if 0 < (1 : ℝ) then FVal.inf else FVal.ninf)
      else FVal.fin (1 / 0)) = FVal.inf
    norm_num
  have h1 : fmul (FVal.fin 9) (FVal.fin 0) = FVal.fin 0 := by
    show FVal.fin (9 * 0) = FVal.fin 0
    norm_num
  have e2 : fsqrt (FVal.fin 0) = FVal.fin 0 := by
    show (if (0 : ℝ) < 0 then FVal.nan else FVal.fin (Real.sqrt 0)) = FVal.fin 0
    norm_num [Real.sqrt_zero]
  have h2 : fmul (FVal.fin 3) (fsqrt (FVal.fin 0)) = FVal.fin 0 := by
    rw [e2]
    show FVal.fin (3 * 0) = FVal.fin 0
    norm_num
  have e7 : fmul (FVal.fin 0) FVal.ninf = FVal.nan := by
    show (if (0 : ℝ) = 0 then FVal.nan
      else if 0 < (0 : ℝ) then FVal.ninf else FVal.inf) = FVal.nan
    norm_num
  have hdn : err_dnF (FVal.fin 0) = FVal.nan := by
    unfold err_dnF
    rw [h1, h2, ediv0]
    show fabs (fsub (fmul (FVal.fin 0) (fpow3 (fsub FVal.ninf FVal.inf)))
      (FVal.fin 0)) = FVal.nan
    show fabs (fsub (fmul (FVal.fin 0) FVal.ninf) (FVal.fin 0)) = FVal.nan
    rw [e7]
    rfl
  exact ⟨h1, h2, hdn, by unfold PerrorF; rw [if_pos rfl, hdn], by simp [PerrorF, hdn]⟩

/-- The masking loop leaves a sample untouched when it lies in no
interval. -/
theorem setMask_id (time cur : List ℚ) (t0 t1 : ℚ)
    (hlen : cur.length = time.length)
    (h : ∀ t ∈ time, ¬(t0 ≤ t ∧ t ≤ t1)) :
    setMask time t0 t1 cur = cur := by
  induction time generalizing cur with
  | nil =>
      have hc : cur = [] := List.length_eq_zero.mp hlen
      subst hc
      rfl
  | cons t ts ih =>
      cases cur with
      | nil => rfl
      | cons c cs =>
          show (if t0 ≤ t ∧ t ≤ t1 then (1 : ℚ) else c) :: setMask ts t0 t1 cs =
            c :: cs
          rw [if_neg (h t (List.mem_cons_self t ts))]
          exact congrArg (c :: ·)
            (ih cs (by simpa using hlen) (fun u hu => h u (List.mem_cons_of_mem t hu)))

/-- When no time sample lies in any FBEYE interval, `fbtime` stays all
zero. -/
theorem maskIntervals_all_zero (time : List ℚ) (fb : List (List ℚ))
    (h : ∀ t ∈ time, ∀ k < fb.length, ¬(mget fb k 0 ≤ t ∧ t ≤ mget fb k 1)) :
    maskIntervals time fb = List.replicate time.length 0 := by
  unfold maskIntervals
  have key : ∀ l : List ℕ, (∀ k ∈ l, k < fb.length) →
      l.foldl (fun cur k => setMask time (mget fb k 0) (mget fb k 1) cur)
        (List.replicate time.length 0) = List.replicate time.length 0 := by
    intro l
    induction l with
    | nil => intro _; rfl
    | cons a l2 ih =>
        intro hl
        rw [List.foldl_cons, setMask_id time _ _ _ (by simp)
          (fun t ht => h t ht a (hl a (List.mem_cons_self a l2)))]
        exact ih (fun k hk => hl k (List.mem_cons_of_mem a hk))
  exact key (List.range fb.length) (fun k hk => List.mem_range.mp hk)

/-- C10: `benchmark` performs no precondition check before dividing: when
the FBEYE catalog is empty the denominators of `n1` and `n4` are zero, and
when no time sample falls inside any FBEYE flare interval `fbtime` is all
zero, so the denominators of `n2` and `n3` are zero; in each case the
statistic is undefined (the checked division fails). -/
theorem benchmark_no_division_guard (ap fb : List (List ℚ)) (time : List ℚ) :
    (fb = [] → benchmark_n1 ap fb = none ∧ benchmark_n4_checked ap fb = none) ∧
    ((∀ t ∈ time, ∀ k < fb.length, ¬(mget fb k 0 ≤ t ∧ t ≤ mget fb k 1)) →
      (maskIntervals time fb).sum = 0 ∧
      benchmark_n2 time ap fb = none ∧
      benchmark_n3 time ap fb = none) := by
  constructor
  · intro hfb
    subst hfb
    exact ⟨by simp [benchmark_n1, safeDiv], by simp [benchmark_n4_checked, safeDiv]⟩
  · intro h
    have hmask := maskIntervals_all_zero time fb h
    have hsum : (maskIntervals time fb).sum = 0 := by
      rw [hmask]
      simp
    refine ⟨hsum, ?_, ?_⟩
    · simp [benchmark_n2, safeDiv, hsum]
    · simp [benchmark_n3, safeDiv, hmask, List.filter_replicate]

/-- Witness for C10: empty FBEYE catalog, one appaloosa flare, one time
sample. -/
theorem benchmark_no_division_guard_witness :
    benchmark_n1 [[1, 2]] ([] : List (List ℚ)) = none ∧
    benchmark_n4_checked [[1, 2]] ([] : List (List ℚ)) = none ∧
    benchmark_n2 [5] [[1, 2]] ([] : List (List ℚ)) = none ∧
    benchmark_n3 [5] [[1, 2]] ([] : List (List ℚ)) = none := by
  have h := benchmark_no_division_guard [[1, 2]] ([] : List (List ℚ)) [5]
  have hno : ∀ t ∈ ([5] : List ℚ), ∀ k < ([] : List (List ℚ)).length,
      ¬(mget ([] : List (List ℚ)) k 0 ≤ t ∧ t ≤ mget ([] : List (List ℚ)) k 1) := by
    decide
  exact ⟨(h.1 rfl).1, (h.1 rfl).2, (h.2 hno).2.1, (h.2 hno).2.2⟩

end Appaloosa
